import Mathlib

/-!
Verification of the backoff retry package (heyts/backoff).

The definitions below are a shallow embedding of the Go source file
backoff.go (the revision with jitter support, whose public surface is
Linear / Exponential / MustLinear / MustExponential, the configuration
mutators Retries / RetryAfter / TimeScale / Callback / Jitter / Label,
the jitter functions NoJitter / FullJitter, and the executors exec /
mustExec).

Modelling conventions:
- Go `interface\x7b\x7d` result values become the inductive `GoVal`.
- Go errors become the inductive `GoErr`; the `UnrecoverableError`
  wrapper type is the `unrecoverable` constructor, and the type switch
  `case *UnrecoverableError, UnrecoverableError` is `isUnrecoverable`.
- Go `uint` is `Nat`; the conversions `int(u)` and `uint(x)` are
  `uintToInt` and `uintOfInt`, with the two's-complement wrap made
  explicit (mod 2^64).
- The wrapped operation `Func` is a function from the number of
  previous invocations to a `(result, error)` pair, which models a
  stateful Go closure such as `successAfter`.
- `rand.Intn(n)` draws from the global random source; it is modelled by
  an explicit seed argument `r`, the draw being `r % n`, and it panics
  when `n <= 0` (modelled as `none`).
- Side effects of a run (time.Sleep, operation invocation, the Warnf
  log line, the callback call) are recorded in an `Event` trace, and a
  run result is an `Outcome`: a normal `(result, err)` return, a panic
  (e.g. calling a nil function value), or a process abort (log.Fatal).
- The Go config field `backoffFunc` is passed to the executors as the
  explicit argument `f`; the entry points store the same function they
  pass, so this is observationally identical.  The reflection-derived
  default label of `getLabel` is the constant package name, which the
  spec notes is purely cosmetic and never affects control flow.
-/

namespace Backoff

/-- Result values carried in the Go `interface\x7b\x7d` result channel. -/
inductive GoVal where
  | vnil
  | vint64 (i : Int)
  | vstr (s : String)
  | vbool (b : Bool)
deriving DecidableEq, Repr

/-- Go error values.  `simple` is an ordinary error (errors.New);
`unrecoverable` is the `UnrecoverableError` wrapper produced by
`NewUnrecoverableError`, holding the wrapped cause. -/
inductive GoErr where
  | simple (msg : String)
  | unrecoverable (cause : GoErr)
deriving DecidableEq, Repr

/-- The type switch in exec and mustExec:
`case *UnrecoverableError, UnrecoverableError`. -/
def isUnrecoverable : GoErr → Bool
  | .unrecoverable _ => true
  | .simple _ => false

/-- Reading the wrapped error out of an `UnrecoverableError` value,
recovering the original cause for diagnostic purposes. -/
def unwrapCause : GoErr → Option GoErr
  | .unrecoverable c => some c
  | .simple _ => none

/-- ErrInvalidRetriesNumber = errors.New("invalid number of retries"). -/
def ErrInvalidRetriesNumber : GoErr := .simple "invalid number of retries"

/-- The wrapped operation: Go `func() (interface\x7b\x7d, error)`.  The
argument is the number of invocations already performed, so stateful
closures are modelled as well. -/
abbrev Func := Nat → GoVal × Option GoErr

/-- Go `int(u)` for `u : uint`: two's-complement reinterpretation. -/
def uintToInt (n : Nat) : Int :=
  if n < 2 ^ 63 then (n : Int) else (n : Int) - 2 ^ 64

/-- Go `uint(x)` for `x : int`: two's-complement reinterpretation. -/
def uintOfInt (x : Int) : Nat := (x % (2 ^ 64 : Int)).toNat

/-- JitterFunc: Go `func(cap uint) int`.  The result is `none` when the
Go function would panic (rand.Intn with a non-positive argument). -/
abbrev JitterFunc := Nat → Option Int

/-- NoJitter returns the number passed to it: `return int(cap)`. -/
def NoJitter : JitterFunc := fun c => some (uintToInt c)

/-- FullJitter: `return rand.Intn(int(cap))`.  The seed `r` models the
draw from the global random source; rand.Intn panics (none) when its
argument is not positive. -/
def FullJitter (r : Nat) : JitterFunc := fun c =>
  let n := uintToInt c
  if 0 < n then some ((r : Int) % n) else none

/-- The configuration record backoffConfig.  The function field
callbackFunc is modelled by its presence (`hasCallback`), callback
invocations being recorded in the event trace; the logging sink only
receives the Warnf lines that the trace records. -/
structure backoffConfig where
  maxRetries : Nat
  retryAfter : Nat
  jitterFunc : Option JitterFunc
  exponential : Bool
  label : String
  timeScale : Nat
  hasCallback : Bool
  invocations : Nat
  failedInvocations : Nat

/-- ConfigFunc: Go `func(b *backoffConfig) error`; the mutated
configuration is returned explicitly. -/
abbrev ConfigFunc := backoffConfig → Except GoErr backoffConfig

/-- Retries: rejects with ErrInvalidRetriesNumber when
`n > 100 || n < 0` (the second disjunct is vacuous, n being uint),
otherwise sets maxRetries. -/
def Retries (n : Nat) : ConfigFunc := fun b =>
  if n > 100 ∨ n < 0 then .error ErrInvalidRetriesNumber
  else .ok { b with maxRetries := n }

/-- RetryAfter, exactly as the source writes it: the body assigns
`b.maxRetries = n` (and not the retryAfter field). -/
def RetryAfter (n : Nat) : ConfigFunc := fun b =>
  .ok { b with maxRetries := n }

/-- TimeScale sets the timescale field. -/
def TimeScale (t : Nat) : ConfigFunc := fun b =>
  .ok { b with timeScale := t }

/-- Label sets a custom label. -/
def Label (s : String) : ConfigFunc := fun b =>
  .ok { b with label := s }

/-- Callback installs a callback function. -/
def Callback : ConfigFunc := fun b =>
  .ok { b with hasCallback := true }

/-- Jitter installs a jitter function. -/
def Jitter (j : JitterFunc) : ConfigFunc := fun b =>
  .ok { b with jitterFunc := some j }

/-- The option-application loop shared by the entry points: apply each
option in order, stopping at the first error. -/
def applyOpts (b : backoffConfig) : List ConfigFunc → Except GoErr backoffConfig
  | [] => .ok b
  | o :: rest =>
    match o b with
    | .error e => .error e
    | .ok b' => applyOpts b' rest

/-- Observable side effects of a run, in order. -/
inductive Event where
  | slept (d : Nat) (scale : Nat)
  | invoked (i : Nat)
  | warned (label : String) (i : Nat) (e : GoErr)
  | callbackCalled (inv : Nat) (failedInv : Nat) (r : GoVal)
deriving DecidableEq, Repr

/-- How a run ends: a normal Go return, a runtime panic, or a process
abort via log.Fatal / log.Fatalf. -/
inductive Outcome where
  | ok (result : GoVal) (err : Option GoErr)
  | panicked (msg : String)
  | fatal (msg : String)
deriving DecidableEq, Repr

/-- The runtime error produced by calling a nil function value. -/
def nilFuncPanic : String :=
  "runtime error: invalid memory address or nil pointer dereference"

/-- The panic message of rand.Intn on a non-positive argument. -/
def intnPanic : String := "invalid argument to Intn"

/-- mustExec aborts with `giving up after %d tries`. -/
def givingUpMsg : String := "giving up"

/-- The Must entry points log.Fatal the first configuration error. -/
def fatalConfigMsg : String := "invalid configuration"

/-- The delay magnitude the executors compute at attempt `i` from the
jitter value `jv`: `uint(jv * int(i))` when exponential, `uint(jv)`
otherwise. -/
def delayAt (ex : Bool) (jv : Int) (i : Nat) : Nat :=
  if ex then uintOfInt (jv * uintToInt i) else uintOfInt jv

/-- The same delay computation, reading the strategy kind from the
configuration. -/
def attemptDelay (b : backoffConfig) (jv : Int) (i : Nat) : Nat :=
  delayAt b.exponential jv i

/-- The code after the loop of exec: invoke the callback when one is
set and prevErr is nil, then return `(result, prevErr)`. -/
def execFinish (b : backoffConfig) (res : GoVal) (prevErr : Option GoErr) :
    Outcome × List Event :=
  match prevErr, b.hasCallback with
  | none, true =>
      (.ok res none, [.callbackCalled b.invocations b.failedInvocations res])
  | none, false => (.ok res none, [])
  | some e, _ => (.ok res (some e), [])

/-- The loop of exec, unrolled as structural recursion on the number of
remaining iterations.  `i` is the Go loop counter (1-based), so
`remaining = b.maxRetries - i + 1` at every call from exec itself. -/
def execLoop (f : Func) (b : backoffConfig) (i : Nat) (remaining : Nat)
    (res : GoVal) (prevErr : Option GoErr) : Outcome × List Event :=
  match remaining with
  | 0 => execFinish b res prevErr
  | r + 1 =>
    let b1 := { b with invocations := i }
    match b1.jitterFunc with
    | none => (.panicked nilFuncPanic, [])
    | some j =>
      match j b1.retryAfter with
      | none => (.panicked intnPanic, [])
      | some jv =>
        let d := attemptDelay b1 jv i
        match f (i - 1) with
        | (r', some e) =>
          if isUnrecoverable e then
            (.ok (.vint64 0) (some e), [.slept d b1.timeScale, .invoked i])
          else
            let b2 := { b1 with failedInvocations := b1.failedInvocations + 1 }
            let rest := execLoop f b2 (i + 1) r r' (some e)
            (rest.1,
              .slept d b1.timeScale :: .invoked i ::
                .warned b1.label i e :: rest.2)
        | (r', none) =>
          let fin := execFinish b1 r' none
          (fin.1, .slept d b1.timeScale :: .invoked i :: fin.2)

/-- exec: the Report-policy executor. -/
def exec (f : Func) (b : backoffConfig) : Outcome × List Event :=
  execLoop f b 1 b.maxRetries .vnil none

/-- The code after the loop of mustExec: a non-nil err aborts the
process; otherwise the callback (when set) runs and the result is
returned bare. -/
def mustExecFinish (b : backoffConfig) (res : GoVal) (errState : Option GoErr) :
    Outcome × List Event :=
  match errState, b.hasCallback with
  | some _, _ => (.fatal givingUpMsg, [])
  | none, true =>
      (.ok res none, [.callbackCalled b.invocations b.failedInvocations res])
  | none, false => (.ok res none, [])

/-- The loop of mustExec.  An unrecoverable error panics; exhaustion
leaves the last error in `errState` for the post-loop Fatalf. -/
def mustExecLoop (f : Func) (b : backoffConfig) (i : Nat) (remaining : Nat)
    (res : GoVal) (errState : Option GoErr) : Outcome × List Event :=
  match remaining with
  | 0 => mustExecFinish b res errState
  | r + 1 =>
    let b1 := { b with invocations := i }
    match b1.jitterFunc with
    | none => (.panicked nilFuncPanic, [])
    | some j =>
      match j b1.retryAfter with
      | none => (.panicked intnPanic, [])
      | some jv =>
        let d := attemptDelay b1 jv i
        match f (i - 1) with
        | (r', some e) =>
          if isUnrecoverable e then
            (.panicked givingUpMsg, [.slept d b1.timeScale, .invoked i])
          else
            let b2 := { b1 with failedInvocations := b1.failedInvocations + 1 }
            let rest := mustExecLoop f b2 (i + 1) r r' (some e)
            (rest.1,
              .slept d b1.timeScale :: .invoked i ::
                .warned b1.label i e :: rest.2)
        | (r', none) =>
          let fin := mustExecFinish b1 r' none
          (fin.1, .slept d b1.timeScale :: .invoked i :: fin.2)

/-- mustExec: the Abort-policy executor. -/
def mustExec (f : Func) (b : backoffConfig) : Outcome × List Event :=
  mustExecLoop f b 1 b.maxRetries .vnil none

/-- time.Millisecond in nanoseconds, the default timeScale. -/
def timeMillisecond : Nat := 1000000

/-- The configuration literal of Linear: the only entry point whose
literal sets `jitterFunc: FullJitter`.  `rng` models the random draw of
the installed FullJitter. -/
def linearDefaults (rng : Nat) : backoffConfig :=
  { maxRetries := 10, retryAfter := 500, jitterFunc := some (FullJitter rng)
    exponential := false, label := "backoff", timeScale := timeMillisecond
    hasCallback := false, invocations := 0, failedInvocations := 0 }

/-- The configuration literal of Exponential: its struct literal omits
jitterFunc, so the field is the nil function value. -/
def expDefaults : backoffConfig :=
  { maxRetries := 10, retryAfter := 500, jitterFunc := none
    exponential := true, label := "backoff", timeScale := timeMillisecond
    hasCallback := false, invocations := 0, failedInvocations := 0 }

/-- The configuration literal of MustLinear: jitterFunc omitted (nil). -/
def mustLinearDefaults : backoffConfig :=
  { maxRetries := 10, retryAfter := 500, jitterFunc := none
    exponential := false, label := "backoff", timeScale := timeMillisecond
    hasCallback := false, invocations := 0, failedInvocations := 0 }

/-- The configuration literal of MustExponential: jitterFunc omitted
(nil). -/
def mustExpDefaults : backoffConfig :=
  { maxRetries := 10, retryAfter := 500, jitterFunc := none
    exponential := true, label := "backoff", timeScale := timeMillisecond
    hasCallback := false, invocations := 0, failedInvocations := 0 }

/-- Linear: build the config, apply options (first error returned as
`(nil, err)` without running), then exec. -/
def Linear (f : Func) (rng : Nat) (opts : List ConfigFunc) :
    Outcome × List Event :=
  match applyOpts (linearDefaults rng) opts with
  | .error e => (.ok .vnil (some e), [])
  | .ok cfg => exec f cfg

/-- Exponential: build the config, apply options, then exec. -/
def Exponential (f : Func) (opts : List ConfigFunc) : Outcome × List Event :=
  match applyOpts expDefaults opts with
  | .error e => (.ok .vnil (some e), [])
  | .ok cfg => exec f cfg

/-- MustLinear: a configuration error is log.Fatal (process abort). -/
def MustLinear (f : Func) (opts : List ConfigFunc) : Outcome × List Event :=
  match applyOpts mustLinearDefaults opts with
  | .error _ => (.fatal fatalConfigMsg, [])
  | .ok cfg => mustExec f cfg

/-- MustExponential: a configuration error is log.Fatal. -/
def MustExponential (f : Func) (opts : List ConfigFunc) :
    Outcome × List Event :=
  match applyOpts mustExpDefaults opts with
  | .error _ => (.fatal fatalConfigMsg, [])
  | .ok cfg => mustExec f cfg

/-- Is this event an operation invocation. -/
def isInvoked : Event → Bool
  | .invoked _ => true
  | _ => false

/-- Is this event a sleep or an invocation. -/
def isSleptOrInvoked : Event → Bool
  | .slept _ _ => true
  | .invoked _ => true
  | _ => false

/-- Is this event a callback call. -/
def isCallback : Event → Bool
  | .callbackCalled _ _ _ => true
  | _ => false

/-- Number of operation invocations in a trace. -/
def countInvoked (evs : List Event) : Nat := evs.countP isInvoked

/-- The callback calls of a trace. -/
def callbackEvents (evs : List Event) : List Event := evs.filter isCallback

/-- The sleep and invocation events of a trace, in order. -/
def delayEvents (evs : List Event) : List Event :=
  evs.filter isSleptOrInvoked

/-- The list of attempt indices start, start+1, ..., start+n-1. -/
def attemptRange (start : Nat) : Nat → List Nat
  | 0 => []
  | n + 1 => start :: attemptRange (start + 1) n

/-- An operation that succeeds immediately, like the Example test. -/
def succOp : Func := fun _ => (.vbool true, none)

/-- An operation that always fails recoverably, like failingFunc. -/
def alwaysFailOp : Func := fun _ => (.vnil, some (.simple "boom"))

/-- An operation whose first return is wrapped by NewUnrecoverableError. -/
def unrecOp : Func := fun _ => (.vnil, some (.unrecoverable (.simple "boom")))

/-- An operation that fails recoverably on its first `n` invocations and
then succeeds, like successAfter in the tests. -/
def succAfterOp (n : Nat) : Func := fun c =>
  if c < n then (.vnil, some (.simple "boom")) else (.vstr "ok", none)

/-- The configuration a caller obtains from the Linear defaults by the
accepted mutators Retries 0 and Callback. -/
def zeroRetriesCfg : backoffConfig :=
  { linearDefaults 0 with maxRetries := 0, hasCallback := true }

/-- The Linear defaults with a callback configured. -/
def callbackCfg : backoffConfig :=
  { linearDefaults 0 with hasCallback := true }

/-- The sleep/invocation trace the executor is expected to produce for
`n` consecutive attempts starting at attempt `i`: before each
invocation, one sleep of the jittered delay (multiplied by the attempt
index exactly when the strategy is exponential), scaled by the
configured timescale. -/
def expectedDelayTrace (ex : Bool) (ts : Nat) (jv : Int) :
    Nat → Nat → List Event
  | _, 0 => []
  | i, n + 1 =>
      .slept (delayAt ex jv i) ts :: .invoked i ::
        expectedDelayTrace ex ts jv (i + 1) n

end Backoff

namespace Backoff

/-- C1: the claim states that RetryAfter(n) sets the base delay field
retryAfter and leaves every other field, in particular maxRetries,
unchanged.  The code instead assigns maxRetries: applied to the default
Linear configuration (maxRetries 10, retryAfter 500), RetryAfter 7
yields maxRetries 7 and retryAfter still 500 — the opposite frame of
the claimed one, contradicting the function doc comment of the source
as well, which says it sets the wait before retrying. -/
theorem C1_retryAfter_sets_maxRetries :
    RetryAfter 7 (linearDefaults 0) =
      .ok { linearDefaults 0 with maxRetries := 7 } ∧
    (RetryAfter 7 (linearDefaults 0)).toOption.map backoffConfig.maxRetries =
      some 7 ∧
    (RetryAfter 7 (linearDefaults 0)).toOption.map backoffConfig.retryAfter =
      some 500 :=
  ⟨rfl, rfl, rfl⟩

/-- C2: the claim states that Retries(n) rejects every n outside [1,100]
with ErrInvalidRetriesNumber, in particular n = 0.  The guard
`n > 100 || n < 0` is vacuous below (n is unsigned), so Retries 0 is
accepted and sets maxRetries to 0; only the upper bound is enforced
(Retries 101 does fail as claimed). -/
theorem C2_retries_zero_accepted :
    Retries 0 (linearDefaults 0) =
      .ok { linearDefaults 0 with maxRetries := 0 } ∧
    Retries 101 (linearDefaults 0) = .error ErrInvalidRetriesNumber := by
  refine ⟨?_, ?_⟩ <;> simp [Retries]

/-- C6: the claim states that all four entry points default the jitter
strategy to FullJitter, so the attempt loop never dereferences an unset
jitter function.  Only the Linear literal sets jitterFunc; the
Exponential, MustLinear and MustExponential literals omit it, so with
no Jitter option a run through any of those three calls a nil function
value on its very first attempt and panics before invoking the
operation even once. -/
theorem C6_default_jitter_nil_panics :
    (linearDefaults 0).jitterFunc = some (FullJitter 0) ∧
    expDefaults.jitterFunc = none ∧
    (Exponential succOp []).1 = .panicked nilFuncPanic ∧
    countInvoked (Exponential succOp []).2 = 0 ∧
    (MustLinear succOp []).1 = .panicked nilFuncPanic ∧
    (MustExponential succOp []).1 = .panicked nilFuncPanic :=
  ⟨rfl, rfl, rfl, rfl, rfl, rfl⟩

/-- C7 counterexample: the claim states FullJitter returns, without
failing, a value in [0, cap) for every non-negative cap, degenerating
to 0 when cap is 0.  At cap = 0 the code calls rand.Intn(0), which
panics (modelled as none), so no value is returned at all. -/
theorem C7_fulljitter_zero_panics : FullJitter 0 0 = none := rfl

/-- C7 (amended): for every cap with 1 <= cap < 2^63 and every random
draw, FullJitter returns a value in [0, cap); every value of [0, cap)
is attained by some draw (uniformity over the draw); the result
degenerates to 0 exactly when cap is 1; and at cap = 0 the function
panics instead of returning 0. -/
theorem C7_fulljitter_range (r c : Nat) (h1 : 1 ≤ c) (h2 : c < 2 ^ 63) :
    (∃ v : Int, FullJitter r c = some v ∧ 0 ≤ v ∧ v < (c : Int)) ∧
    (∀ w : Int, 0 ≤ w → w < (c : Int) →
      ∃ s : Nat, FullJitter s c = some w) ∧
    (c = 1 → FullJitter r c = some 0) ∧
    FullJitter r 0 = none := by
  have h2' : c < 9223372036854775808 := by omega
  have hc : uintToInt c = (c : Int) := by
    simp [uintToInt, h2']
  have hcpos : (0 : Int) < (c : Int) := by exact_mod_cast h1
  refine ⟨⟨(r : Int) % (c : Int), ?_, ?_, ?_⟩, ?_, ?_, ?_⟩
  · simp [FullJitter, hc, hcpos]
  · exact Int.emod_nonneg _ (by omega)
  · exact Int.emod_lt_of_pos _ hcpos
  · intro w hw0 hwc
    refine ⟨w.toNat, ?_⟩
    have ht : ((w.toNat : Nat) : Int) = w := Int.toNat_of_nonneg hw0
    simp [FullJitter, hc, hcpos, ht, Int.emod_eq_of_lt hw0 hwc]
  · intro h1'
    subst h1'
    simp [FullJitter, uintToInt]
  · simp [FullJitter, uintToInt]

/-- Helper: when the operation fails recoverably at every invocation,
the loop started at attempt `i` with `r` remaining iterations and an
already-recorded previous error runs all `r` iterations, ends with the
result and error of the last invocation, and never calls the
callback. -/
theorem execLoop_allFail (f : Func) (j : JitterFunc) (jv : Int)
    (R : Nat → GoVal) (E : Nat → GoErr)
    (hf : ∀ k, f k = (R k, some (E k)))
    (hrec : ∀ k, isUnrecoverable (E k) = false) :
    ∀ r i (b : backoffConfig) res pe, b.jitterFunc = some j →
      j b.retryAfter = some jv →
      (execLoop f b i r res (some pe)).1 =
        .ok (if r = 0 then res else R (i + r - 2))
          (some (if r = 0 then pe else E (i + r - 2))) ∧
      countInvoked (execLoop f b i r res (some pe)).2 = r ∧
      callbackEvents (execLoop f b i r res (some pe)).2 = [] := by
  intro r
  induction r with
  | zero =>
    intro i b res pe hj hjv
    simp [execLoop, execFinish, countInvoked, callbackEvents]
  | succ r ih =>
    intro i b res pe hj hjv
    obtain ⟨mr, ra, jf, ex, lb, ts, cb, inv, finv⟩ := b
    have hj' : jf = some j := hj
    subst hj'
    have hjv' : j ra = some jv := hjv
    obtain ⟨ha, hb, hc⟩ := ih (i + 1)
      (backoffConfig.mk mr ra (some j) ex lb ts cb i (finv + 1))
      (R (i - 1)) (E (i - 1)) rfl hjv'
    simp only [execLoop, hjv', hf (i - 1), hrec (i - 1)]
    simp only [Bool.false_eq_true, if_false]
    refine ⟨?_, ?_, ?_⟩
    · rw [ha]
      rcases r with _ | s
      · have e0 : i + 1 - 2 = i - 1 := by omega
        simp [e0]
      · have e1 : i + 1 + (s + 1) - 2 = i + (s + 1 + 1) - 2 := by omega
        simp [e1]
    · simp only [countInvoked, List.countP_cons, isInvoked] at hb ⊢
      simp [hb]
    · simp only [callbackEvents, List.filter, isCallback] at hc ⊢
      simp [hc]

/-- C4: for every valid maxRetries in [1,100], running an operation
that always fails with a recoverable (not unrecoverable-wrapped) error
invokes the operation exactly maxRetries times, the run returns the
error of the last failed attempt (non-nil), and the callback is never
invoked. -/
theorem C4_always_fail_exhausts (f : Func) (b : backoffConfig)
    (j : JitterFunc) (jv : Int) (R : Nat → GoVal) (E : Nat → GoErr)
    (h1 : 1 ≤ b.maxRetries) (h2 : b.maxRetries ≤ 100)
    (hj : b.jitterFunc = some j) (hjv : j b.retryAfter = some jv)
    (hf : ∀ k, f k = (R k, some (E k)))
    (hrec : ∀ k, isUnrecoverable (E k) = false) :
    countInvoked (exec f b).2 = b.maxRetries ∧
    (exec f b).1 =
      .ok (R (b.maxRetries - 1)) (some (E (b.maxRetries - 1))) ∧
    callbackEvents (exec f b).2 = [] := by
  obtain ⟨mr, ra, jf, ex, lb, ts, cb, inv, finv⟩ := b
  have hj' : jf = some j := hj
  subst hj'
  have hjv' : j ra = some jv := hjv
  obtain ⟨m, hm⟩ := Nat.exists_eq_add_of_le h1
  have hmr : mr = m + 1 := by
    have : mr = 1 + m := hm
    omega
  subst hmr
  obtain ⟨ha, hb, hc⟩ := execLoop_allFail f j jv R E hf hrec m 2
    (backoffConfig.mk (m + 1) ra (some j) ex lb ts cb 1 (finv + 1))
    (R 0) (E 0) rfl hjv'
  rw [exec]
  simp only [execLoop, hjv', hf 0, hrec 0]
  simp only [Bool.false_eq_true, if_false]
  refine ⟨?_, ?_, ?_⟩
  · simp only [countInvoked, List.countP_cons, isInvoked] at hb ⊢
    simp [hb]
  · rw [ha]
    rcases m with _ | s
    · simp
    · have e1 : 2 + (s + 1) - 2 = s + 1 + 1 - 1 := by omega
      simp [e1]
  · simp only [callbackEvents, List.filter, isCallback] at hc ⊢
    simp [hc]

/-- C4 witness: the default Linear configuration (maxRetries 10, within
[1,100]) run on an operation that always fails recoverably: exactly 10
invocations, the last failure returned, no callback call. -/
theorem C4_always_fail_exhausts_witness :
    countInvoked (exec alwaysFailOp (linearDefaults 0)).2 =
      (linearDefaults 0).maxRetries ∧
    (exec alwaysFailOp (linearDefaults 0)).1 =
      .ok .vnil (some (.simple "boom")) ∧
    callbackEvents (exec alwaysFailOp (linearDefaults 0)).2 = [] :=
  C4_always_fail_exhausts alwaysFailOp (linearDefaults 0)
    (FullJitter 0) 0 (fun _ => .vnil) (fun _ => .simple "boom")
    (by decide) (by decide) rfl rfl (fun _ => rfl) (fun _ => rfl)

/-- Helper: when the operation fails recoverably for its next `m`
invocations and succeeds on the one after, a loop started at attempt
`i` (1-based) with more than `m` iterations remaining ends in success
with the success value, performs exactly m+1 invocations, and — when a
callback is configured — fires it exactly once with the configuration
(whose invocation counter reads i+m) and the success value. -/
theorem execLoop_succAt (f : Func) (j : JitterFunc) (jv : Int) (v : GoVal) :
    ∀ m (R : Nat → GoVal) (E : Nat → GoErr) i (b : backoffConfig) res pErr r,
      1 ≤ i →
      b.jitterFunc = some j → j b.retryAfter = some jv →
      b.hasCallback = true →
      m < r →
      (∀ t, t < m → f (i - 1 + t) = (R t, some (E t))) →
      (∀ t, t < m → isUnrecoverable (E t) = false) →
      f (i - 1 + m) = (v, none) →
      (execLoop f b i r res pErr).1 = .ok v none ∧
      countInvoked (execLoop f b i r res pErr).2 = m + 1 ∧
      callbackEvents (execLoop f b i r res pErr).2 =
        [.callbackCalled (i + m) (b.failedInvocations + m) v] := by
  intro m
  induction m with
  | zero =>
    intro R E i b res pErr r hi hj hjv hcb hmr hfail hrec hsucc
    obtain ⟨mr, ra, jf, ex, lb, ts, cb, inv, finv⟩ := b
    have hj' : jf = some j := hj
    subst hj'
    have hjv' : j ra = some jv := hjv
    have hcb' : cb = true := hcb
    subst hcb'
    obtain ⟨s, rfl⟩ : ∃ s, r = s + 1 := ⟨r - 1, by omega⟩
    simp only [Nat.add_zero] at hsucc
    simp only [execLoop, hjv', hsucc]
    simp [execFinish, countInvoked, List.countP_cons, isInvoked,
      callbackEvents, List.filter, isCallback]
  | succ m ih =>
    intro R E i b res pErr r hi hj hjv hcb hmr hfail hrec hsucc
    obtain ⟨mr, ra, jf, ex, lb, ts, cb, inv, finv⟩ := b
    have hj' : jf = some j := hj
    subst hj'
    have hjv' : j ra = some jv := hjv
    have hcb' : cb = true := hcb
    subst hcb'
    obtain ⟨s, rfl⟩ : ∃ s, r = s + 1 := ⟨r - 1, by omega⟩
    have hf0 := hfail 0 (by omega)
    have hr0 := hrec 0 (by omega)
    simp only [Nat.add_zero] at hf0
    obtain ⟨ha, hb, hc⟩ := ih (fun t => R (t + 1)) (fun t => E (t + 1))
      (i + 1)
      (backoffConfig.mk mr ra (some j) ex lb ts true i (finv + 1))
      (R 0) (some (E 0)) s
      (by omega) rfl hjv' rfl (by omega)
      (fun t ht => by
        have hx := hfail (t + 1) (by omega)
        have e : i + 1 - 1 + t = i - 1 + (t + 1) := by omega
        rw [e]
        exact hx)
      (fun t ht => hrec (t + 1) (by omega))
      (by
        have e : i + 1 - 1 + m = i - 1 + (m + 1) := by omega
        rw [e]
        exact hsucc)
    simp only [execLoop, hjv', hf0, hr0]
    simp only [Bool.false_eq_true, if_false]
    refine ⟨ha, ?_, ?_⟩
    · simp only [countInvoked, List.countP_cons, isInvoked] at hb ⊢
      simp [hb]
    · simp only [callbackEvents, List.filter, isCallback] at hc ⊢
      simp only [hc]
      have e1 : i + 1 + m = i + (m + 1) := by omega
      have e2 : finv + 1 + m = finv + (m + 1) := by omega
      rw [e1, e2]

/-- C5: running an operation that fails recoverably on its first k-1
invocations and succeeds on its k-th (with 1 <= k <= maxRetries)
invokes the operation exactly k times, returns the success result with
a nil error, and fires the configured callback exactly once, with the
configuration (invocation counter k) and the success result. -/
theorem C5_success_at_k (f : Func) (b : backoffConfig) (j : JitterFunc)
    (jv : Int) (v : GoVal) (R : Nat → GoVal) (E : Nat → GoErr) (k : Nat)
    (hk1 : 1 ≤ k) (hk2 : k ≤ b.maxRetries)
    (hj : b.jitterFunc = some j) (hjv : j b.retryAfter = some jv)
    (hcb : b.hasCallback = true) (hfi : b.failedInvocations = 0)
    (hfail : ∀ t, t < k - 1 → f t = (R t, some (E t)))
    (hrec : ∀ t, t < k - 1 → isUnrecoverable (E t) = false)
    (hsucc : f (k - 1) = (v, none)) :
    countInvoked (exec f b).2 = k ∧
    (exec f b).1 = .ok v none ∧
    callbackEvents (exec f b).2 = [.callbackCalled k (k - 1) v] := by
  obtain ⟨ha, hb, hc⟩ := execLoop_succAt f j jv v (k - 1) R E 1 b .vnil
    none b.maxRetries (by omega) hj hjv hcb (by omega)
    (fun t ht => by simpa using hfail t ht)
    hrec
    (by simpa using hsucc)
  rw [exec]
  refine ⟨by rw [hb]; omega, ha, ?_⟩
  rw [hc, hfi]
  have e1 : 1 + (k - 1) = k := by omega
  rw [e1]
  simp

/-- C5 witness: the Linear defaults with a callback, k = 2, maxRetries
10: an operation failing once then succeeding is invoked twice, the
success value is returned with nil error, and the callback fires once
with invocation counter 2 and the success value. -/
theorem C5_success_at_k_witness :
    countInvoked (exec (succAfterOp 1) callbackCfg).2 = 2 ∧
    (exec (succAfterOp 1) callbackCfg).1 = .ok (.vstr "ok") none ∧
    callbackEvents (exec (succAfterOp 1) callbackCfg).2 =
      [.callbackCalled 2 1 (.vstr "ok")] :=
  C5_success_at_k (succAfterOp 1) callbackCfg (FullJitter 0) 0
    (.vstr "ok") (fun _ => .vnil) (fun _ => .simple "boom") 2
    (by decide) (by decide) rfl rfl rfl rfl
    (fun t ht => by
      have ht0 : t = 0 := by omega
      subst ht0
      rfl)
    (fun t ht => rfl)
    rfl

/-- C9: Retries 0 is accepted (the negative check is vacuous on an
unsigned parameter and only values above 100 are rejected), and a run
over a configuration with maxRetries 0 never enters the loop: the
operation is invoked zero times, the run returns a nil result and a nil
error, and a configured callback is invoked once, receiving the
configuration (invocation counter 0) and the nil result, although no
attempt ever succeeded. -/
theorem C9_zero_retries_success_shaped (f : Func) (b : backoffConfig)
    (h0 : b.maxRetries = 0) (hcb : b.hasCallback = true)
    (hinv : b.invocations = 0) :
    Retries 0 b = .ok { b with maxRetries := 0 } ∧
    (exec f b).1 = .ok .vnil none ∧
    countInvoked (exec f b).2 = 0 ∧
    callbackEvents (exec f b).2 =
      [.callbackCalled 0 b.failedInvocations .vnil] := by
  have hx : exec f b = execFinish b .vnil none := by
    rw [exec, h0]
    rfl
  refine ⟨by simp [Retries], ?_, ?_, ?_⟩ <;>
    simp [hx, execFinish, hcb, hinv, countInvoked, callbackEvents,
      isCallback, isInvoked]

/-- C9 witness: the default Linear configuration with maxRetries forced
to 0 and a callback configured, run on an operation that would succeed:
zero invocations, nil result and error, one callback call with the nil
result. -/
theorem C9_zero_retries_success_shaped_witness :
    (Retries 0 zeroRetriesCfg = .ok { zeroRetriesCfg with maxRetries := 0 } ∧
     (exec succOp zeroRetriesCfg).1 = .ok .vnil none ∧
     countInvoked (exec succOp zeroRetriesCfg).2 = 0 ∧
     callbackEvents (exec succOp zeroRetriesCfg).2 =
       [.callbackCalled 0 zeroRetriesCfg.failedInvocations .vnil]) :=
  C9_zero_retries_success_shaped succOp zeroRetriesCfg rfl rfl rfl

/-- C3: an operation whose first invocation returns an error wrapped by
NewUnrecoverableError is invoked exactly once by the executor
(regardless of how large maxRetries is), the run stops immediately, and
the terminal error is the unrecoverable wrapper whose wrapped field is
the original cause. -/
theorem C3_unrecoverable_invoked_once (f : Func) (b : backoffConfig)
    (j : JitterFunc) (jv : Int) (r0 : GoVal) (cause : GoErr)
    (hm : 1 ≤ b.maxRetries)
    (hj : b.jitterFunc = some j)
    (hjv : j b.retryAfter = some jv)
    (hf : f 0 = (r0, some (.unrecoverable cause))) :
    countInvoked (exec f b).2 = 1 ∧
    (exec f b).1 = .ok (.vint64 0) (some (GoErr.unrecoverable cause)) ∧
    unwrapCause (GoErr.unrecoverable cause) = some cause := by
  obtain ⟨m, hm'⟩ := Nat.exists_eq_add_of_le hm
  rw [exec, hm', Nat.add_comm]
  simp [execLoop, hj, hjv, hf, isUnrecoverable, countInvoked,
    isInvoked, unwrapCause]

/-- C3 witness: the default Linear configuration (maxRetries 10) run on
an operation returning an unrecoverable wrapper of a sample error:
exactly one invocation, immediate return, and the cause recovered by
unwrapping. -/
theorem C3_unrecoverable_invoked_once_witness :
    countInvoked (exec unrecOp (linearDefaults 0)).2 = 1 ∧
    (exec unrecOp (linearDefaults 0)).1 =
      .ok (.vint64 0) (some (GoErr.unrecoverable (.simple "boom"))) ∧
    unwrapCause (GoErr.unrecoverable (.simple "boom")) =
      some (GoErr.simple "boom") :=
  C3_unrecoverable_invoked_once unrecOp (linearDefaults 0)
    (FullJitter 0) 0 .vnil (.simple "boom") (by decide) rfl rfl rfl

/-- Helper: the only way the Report-policy loop can return an error the
classifier recognizes as unrecoverable is the short-circuit return,
whose result value is the literal int64(0); the invariant needed is
that the previous-error register only ever holds recoverable errors. -/
theorem execLoop_unrec_result (f : Func) :
    ∀ r i (b : backoffConfig) res pErr (v : GoVal) (e : GoErr),
      (∀ e0, pErr = some e0 → isUnrecoverable e0 = false) →
      (execLoop f b i r res pErr).1 = .ok v (some e) →
      isUnrecoverable e = true →
      v = .vint64 0 := by
  intro r
  induction r with
  | zero =>
    intro i b res pErr v e hinv h he
    rcases pErr with _ | pe
    · rcases hcb : b.hasCallback <;> simp [execLoop, execFinish, hcb] at h
    · simp [execLoop, execFinish] at h
      obtain ⟨h1, h2⟩ := h
      subst h2
      simp [hinv _ rfl] at he
  | succ r ih =>
    intro i b res pErr v e hinv h he
    obtain ⟨mr, ra, jf, ex, lb, ts, cb, inv, finv⟩ := b
    rcases jf with _ | j
    · simp [execLoop] at h
    · rcases hjv : j ra with _ | jv
      · simp [execLoop, hjv] at h
      · rcases hfi : f (i - 1) with ⟨r', oe⟩
        rcases oe with _ | e'
        · rcases cb <;> simp [execLoop, hjv, hfi, execFinish] at h
        · rcases hu : isUnrecoverable e' with _ | _
          · simp only [execLoop, hjv, hfi, hu, Bool.false_eq_true,
              if_false] at h
            exact ih (i + 1) _ r' (some e') v e
              (fun e0 heq => by
                injection heq with heq'
                subst heq'
                exact hu) h he
          · simp only [execLoop, hjv, hfi, hu, if_true] at h
            simp at h
            exact h.1.symm

/-- C10: whenever a run of the Report-policy executor ends with an
error recognized as unrecoverable, the result value handed back to the
caller is the literal int64(0) — regardless of the result value the
operation returned alongside the error and regardless of the results
of prior attempts. -/
theorem C10_unrecoverable_returns_int64_zero (f : Func)
    (b : backoffConfig) (v : GoVal) (e : GoErr)
    (h : (exec f b).1 = .ok v (some e))
    (he : isUnrecoverable e = true) :
    v = .vint64 0 := by
  exact execLoop_unrec_result f b.maxRetries 1 b .vnil none v e
    (fun e0 heq => by cases heq) h he

/-- C10 witness: the default Linear configuration run on an operation
that returns the value vnil alongside an unrecoverable error: the run
returns int64(0), not the vnil the operation produced. -/
theorem C10_unrecoverable_returns_int64_zero_witness :
    GoVal.vint64 0 = GoVal.vint64 0 ∧
    (exec unrecOp (linearDefaults 0)).1 =
      .ok (.vint64 0) (some (GoErr.unrecoverable (.simple "boom"))) :=
  ⟨C10_unrecoverable_returns_int64_zero unrecOp (linearDefaults 0)
    (.vint64 0) (GoErr.unrecoverable (.simple "boom")) rfl rfl, rfl⟩

/-- Helper: the sleep/invocation skeleton of the loop trace.  Starting
at attempt `i`, however many invocations the run performs, each one is
immediately preceded by a sleep of the jittered, strategy-scaled delay
for its attempt index; and with at least one iteration remaining, at
least one invocation happens. -/
theorem execLoop_delay_trace (f : Func) (j : JitterFunc) (jv : Int) :
    ∀ r i (b : backoffConfig) res pErr,
      b.jitterFunc = some j → j b.retryAfter = some jv →
      delayEvents (execLoop f b i r res pErr).2 =
        expectedDelayTrace b.exponential b.timeScale jv i
          (countInvoked (execLoop f b i r res pErr).2) ∧
      (1 ≤ r → 1 ≤ countInvoked (execLoop f b i r res pErr).2) := by
  intro r
  induction r with
  | zero =>
    intro i b res pErr hj hjv
    rcases pErr with _ | pe
    · rcases hcb : b.hasCallback <;>
        simp [execLoop, execFinish, hcb, delayEvents, countInvoked,
          isSleptOrInvoked, isInvoked, expectedDelayTrace]
    · simp [execLoop, execFinish, delayEvents, countInvoked,
        isSleptOrInvoked, isInvoked, expectedDelayTrace]
  | succ r ih =>
    intro i b res pErr hj hjv
    obtain ⟨mr, ra, jf, ex, lb, ts, cb, inv, finv⟩ := b
    have hj' : jf = some j := hj
    subst hj'
    have hjv' : j ra = some jv := hjv
    rcases hfi : f (i - 1) with ⟨r', oe⟩
    rcases oe with _ | e'
    · rcases cb <;>
        simp [execLoop, hjv', hfi, execFinish, delayEvents, countInvoked,
          isSleptOrInvoked, isInvoked, isCallback, expectedDelayTrace,
          attemptDelay, List.countP_cons]
    · rcases hu : isUnrecoverable e' with _ | _
      · obtain ⟨ha, _⟩ := ih (i + 1)
          (backoffConfig.mk mr ra (some j) ex lb ts cb i (finv + 1))
          r' (some e') rfl hjv'
        simp only [execLoop, hjv', hfi, hu, Bool.false_eq_true, if_false]
        simp only [delayEvents, countInvoked, List.filter,
          List.countP_cons, isSleptOrInvoked, isInvoked, attemptDelay] at ha ⊢
        simp only [List.countP] at ha ⊢
        constructor
        · simp [expectedDelayTrace, ha]
        · intro _
          simp
      · simp [execLoop, hjv', hfi, hu, delayEvents, countInvoked,
          isSleptOrInvoked, isInvoked, expectedDelayTrace, attemptDelay,
          List.countP_cons]

/-- C8: a run of the Report-policy executor whose configuration holds a
jitter function evaluating to `jv` on the base delay produces a trace
whose sleep/invocation skeleton is exactly, for each attempt i the run
performs (1-based, in order): a sleep of `jv` multiplied by i when the
strategy is exponential (growing) and of `jv` unchanged otherwise,
scaled by the configured timescale, immediately followed by the
invocation — so every invocation, including the very first, is preceded
by its wait. -/
theorem C8_sleep_before_every_attempt (f : Func) (b : backoffConfig)
    (j : JitterFunc) (jv : Int)
    (hj : b.jitterFunc = some j) (hjv : j b.retryAfter = some jv) :
    delayEvents (exec f b).2 =
      expectedDelayTrace b.exponential b.timeScale jv 1
        (countInvoked (exec f b).2) ∧
    (1 ≤ b.maxRetries → 1 ≤ countInvoked (exec f b).2) := by
  rw [exec]
  exact execLoop_delay_trace f j jv b.maxRetries 1 b .vnil none hj hjv

/-- C8 witness: the default Linear configuration (constant strategy,
jitter draw 0, timescale one millisecond) on an always-failing
operation: ten invocations, each preceded by its sleep. -/
theorem C8_sleep_before_every_attempt_witness :
    (delayEvents (exec alwaysFailOp (linearDefaults 0)).2 =
      expectedDelayTrace false timeMillisecond 0 1
        (countInvoked (exec alwaysFailOp (linearDefaults 0)).2) ∧
     (1 ≤ (linearDefaults 0).maxRetries →
       1 ≤ countInvoked (exec alwaysFailOp (linearDefaults 0)).2)) ∧
    countInvoked (exec alwaysFailOp (linearDefaults 0)).2 = 10 :=
  ⟨C8_sleep_before_every_attempt alwaysFailOp (linearDefaults 0)
    (FullJitter 0) 0 rfl rfl, by decide⟩

/-- C7 witness: at cap = 5 and draw 7 the amended statement holds; in
particular FullJitter 7 5 = some 2. -/
theorem C7_fulljitter_range_witness :
    ((∃ v : Int, FullJitter 7 5 = some v ∧ 0 ≤ v ∧ v < (5 : Int)) ∧
     (∀ w : Int, 0 ≤ w → w < (5 : Int) →
       ∃ s : Nat, FullJitter s 5 = some w) ∧
     ((5 : Nat) = 1 → FullJitter 7 5 = some 0) ∧
     FullJitter 7 0 = none) ∧
    FullJitter 7 5 = some 2 :=
  ⟨C7_fulljitter_range 7 5 (by decide) (by decide), rfl⟩

end Backoff
